import Mathlib

/-!
Shallow embedding of the zuli smartplug protocol codec (`src/zuli/protocol.py`)
and of the session / dispatcher layer (`src/zuli/smartplug.py`).

Modelling conventions:
* a Python `bytearray` buffer is a `List Nat` whose entries are bytes (0..255);
* a Python function that can raise while decoding returns `Option` (`none` for
  a raised `IndexError` / `ValueError`);
* the transport layer returns `Except Unit`, where `.error ()` stands for a
  raised exception (connection failure, timeout, malformed buffer, ...);
* a device (a connected `BleakClient` together with the surrounding write/read
  exchange) is a function from the written packet to the exchange's outcome;
* `asyncio.as_completed` yields task results in completion order, which is
  modelled by an explicit `order : List Nat` of task indices.
-/

namespace Zuli

/-- Opcode byte `ZuliCommand.ON.value` (protocol.py line 21). -/
def ZuliCommand.ON : Nat := 23

/-- Opcode byte `ZuliCommand.OFF.value` (protocol.py line 22). -/
def ZuliCommand.OFF : Nat := 24

/-- Opcode byte `ZuliCommand.SCHEDULE_INFO_GET.value` (protocol.py line 29). -/
def ZuliCommand.SCHEDULE_INFO_GET : Nat := 48

/-- Opcode byte `ZuliCommand.SCHEDULE_GET.value` (protocol.py line 30). -/
def ZuliCommand.SCHEDULE_GET : Nat := 49

/-- Opcode byte `ZuliCommand.SCHEDULE_REMOVE.value` (protocol.py line 33). -/
def ZuliCommand.SCHEDULE_REMOVE : Nat := 52

/-- The `ZuliStatus` enum of protocol.py (values 0, 5, 6, 15, 9). -/
inductive ZuliStatus where
  | SUCCESS
  | BUSY
  | INVALID_PARAM
  | BAD_LENGTH
  | ALREADY_SET
deriving DecidableEq, Repr

/-- The numeric value of each `ZuliStatus` member. -/
def ZuliStatus.toNat : ZuliStatus → Nat
  | .SUCCESS => 0
  | .BUSY => 5
  | .INVALID_PARAM => 6
  | .BAD_LENGTH => 15
  | .ALREADY_SET => 9

/-- Python `ZuliStatus(n)` value lookup; `none` models the raised
`ValueError` on a value outside the closed set {0, 5, 6, 15, 9}. -/
def ZuliStatus.fromNat (n : Nat) : Option ZuliStatus :=
  if n = 0 then some .SUCCESS
  else if n = 5 then some .BUSY
  else if n = 6 then some .INVALID_PARAM
  else if n = 15 then some .BAD_LENGTH
  else if n = 9 then some .ALREADY_SET
  else none

/-- `ZuliStatus.is_success` (protocol.py lines 47-48). -/
def ZuliStatus.is_success (s : ZuliStatus) : Bool :=
  s == ZuliStatus.SUCCESS || s == ZuliStatus.ALREADY_SET

/-- `decode_response_status` (protocol.py lines 50-52): `ZuliStatus(response[1])`.
Python raises `IndexError` on a buffer shorter than 2 bytes and `ValueError`
on a status byte outside the enum; both are modelled as `none`. -/
def decode_response_status (response : List Nat) : Option ZuliStatus :=
  if response.length < 2 then none
  else ZuliStatus.fromNat (response.getD 1 0)

/-- `encode_on` (protocol.py lines 54-61): the brightness is a Python `int`,
clamped by `min(100, max(0, brightness))` before being stored as a byte. -/
def encode_on (brightness : Int) : List Nat :=
  [ZuliCommand.ON, 0, 0, 0, 0, (min 100 (max 0 brightness)).toNat, 0, 0, 0]

/-- `encode_off` (protocol.py lines 63-65). -/
def encode_off : List Nat :=
  [ZuliCommand.OFF, 0, 0, 0]

/-- The `ScheduleAction` enum of protocol.py (ON = 1, OFF = 2). -/
inductive ScheduleAction where
  | ON
  | OFF
deriving DecidableEq, Repr

/-- The numeric value of each `ScheduleAction` member. -/
def ScheduleAction.toNat : ScheduleAction → Nat
  | .ON => 1
  | .OFF => 2

/-- Python `ScheduleAction(n)` value lookup; `none` models the raised
`ValueError` for a byte outside {1, 2}. -/
def ScheduleAction.fromNat (n : Nat) : Option ScheduleAction :=
  if n = 1 then some .ON
  else if n = 2 then some .OFF
  else none

/-- The `Schedule` value class (protocol.py lines 125-185).  The Python
`datetime.time` field is modelled by its `hour`/`minute`/`second` components;
`datetime.time` itself enforces `hour < 24 ∧ minute < 60 ∧ second < 60`,
which `Schedule.Valid` below restates. -/
structure Schedule where
  id : Nat
  action : ScheduleAction
  hour : Nat
  minute : Nat
  second : Nat
  weekdays : List Bool
  enabled : Bool
  schedule_id : Nat
deriving DecidableEq, Repr

/-- The weekday-byte loop of `Schedule.to_bytes` (protocol.py lines 162-168):
OR together `weekdays[i] << ((i + 1) % 7)` for `i` in `range(7)`. -/
def encodeWeekdays (weekdays : List Bool) : Nat :=
  (List.range 7).foldl
    (fun acc i => acc ||| ((if weekdays.getD i false then 1 else 0) <<< ((i + 1) % 7))) 0

/-- The weekday loop of `Schedule.from_bytes` (protocol.py lines 149-155):
entry `i` is `raw[7] & (1 << ((i + 1) % 7)) == 1 << ((i + 1) % 7)`. -/
def decodeWeekdays (w : Nat) : List Bool :=
  (List.range 7).map (fun i => w &&& (1 <<< ((i + 1) % 7)) == 1 <<< ((i + 1) % 7))

/-- `Schedule.from_bytes` (protocol.py lines 141-159).  Python raises
`IndexError` when the buffer is shorter than 10 bytes, `ValueError` when the
action byte is outside {1, 2} and `ValueError` (from `datetime.time`) when a
time component is out of range; all three are modelled as `none`. -/
def Schedule.from_bytes (raw : List Nat) : Option Schedule :=
  if raw.length < 10 then none
  else
    match ScheduleAction.fromNat (raw.getD 1 0) with
    | none => none
    | some action =>
      if raw.getD 4 0 < 24 ∧ raw.getD 5 0 < 60 ∧ raw.getD 6 0 < 60 then
        some { id := raw.getD 0 0
               action := action
               hour := raw.getD 4 0
               minute := raw.getD 5 0
               second := raw.getD 6 0
               weekdays := decodeWeekdays (raw.getD 7 0)
               enabled := raw.getD 8 0 == 1
               schedule_id := raw.getD 9 0 }
      else none

/-- `Schedule.to_bytes` (protocol.py lines 161-171): the 10-byte layout
`[id, action, 0, 0, hour, minute, second, weekday_byte, enabled, slot_id]`
(`bool(enabled)` is stored as 1/0). -/
def Schedule.to_bytes (s : Schedule) : List Nat :=
  [s.id, s.action.toNat, 0, 0, s.hour, s.minute, s.second,
   encodeWeekdays s.weekdays, (if s.enabled then 1 else 0), s.schedule_id]

/-- `Schedule.without_id` (protocol.py lines 173-177): the slice `raw[1:8]`
of the encoded form. -/
def Schedule.without_id (s : Schedule) : List Nat :=
  (s.to_bytes.drop 1).take 7

/-- A `Schedule` whose fields fit the wire encoding: byte-sized ids, an
in-range time of day, and exactly 7 weekday flags. -/
abbrev Schedule.Valid (s : Schedule) : Prop :=
  s.id ≤ 255 ∧ s.schedule_id ≤ 255 ∧ s.hour < 24 ∧ s.minute < 60 ∧
    s.second < 60 ∧ s.weekdays.length = 7

/-- `encode_get_schedule` (protocol.py lines 194-205): `bytearray([49, i])`.
The Python `bytearray` constructor raises `ValueError` when `i` is outside
0..255, modelled as `none`; the function performs no other domain check. -/
def encode_get_schedule (i : Int) : Option (List Nat) :=
  if 0 ≤ i ∧ i ≤ 255 then some [ZuliCommand.SCHEDULE_GET, i.toNat] else none

/-- `decode_get_schedule` (protocol.py lines 207-210):
`Schedule.from_bytes(response[2:])`. -/
def decode_get_schedule (response : List Nat) : Option Schedule :=
  Schedule.from_bytes (response.drop 2)

/-- `encode_get_schedule_info` (protocol.py lines 212-214). -/
def encode_get_schedule_info : List Nat :=
  [ZuliCommand.SCHEDULE_INFO_GET, 0]

/-- The `ScheduleInfo` typed dictionary of protocol.py. -/
structure ScheduleInfo where
  num_schedules : Nat
  max_schedules : Nat
deriving DecidableEq, Repr

/-- `decode_get_schedule_info` (protocol.py lines 220-223): reads bytes 2
and 3; the `IndexError` on a shorter buffer is modelled as `none`. -/
def decode_get_schedule_info (response : List Nat) : Option ScheduleInfo :=
  if 4 ≤ response.length then
    some { num_schedules := response.getD 2 0, max_schedules := response.getD 3 0 }
  else none

/-- `encode_remove_schedule` (protocol.py lines 225-229):
`[52, 0]` followed by `schedule.without_id()`. -/
def encode_remove_schedule (s : Schedule) : List Nat :=
  [ZuliCommand.SCHEDULE_REMOVE, 0] ++ s.without_id

/-- A device models one connected client together with its write/read
exchange: for a written packet it raises (`.error ()`), or returns the raw
response buffer read back (`some buffer`), or no response (`none`, the
`None` case the decoders of smartplug.py defend against). -/
abbrev Dev : Type := List Nat → Except Unit (Option (List Nat))

/-- The list of packets written to the command pipe during an exchange. -/
abbrev Trace : Type := List (List Nat)

/-- A decoder, `Callable[[bytearray | None], T]` in smartplug.py; `.error ()`
models an exception raised while decoding. -/
abbrev Decoder (α : Type) : Type := Option (List Nat) → Except Unit α

/-- An `EncoderOrMessage` of smartplug.py: given the client it either raises,
or produces the message to write (`none` means the Python encoder returned
`None`), together with the packets it itself wrote along the way (the
`encode_remove_ith_schedule` closure performs a fetch of its own). -/
abbrev Encoder : Type := Dev → Except Unit (Option (List Nat) × Trace)

/-- A plain `bytearray` message passed for `encode_message`. -/
def constMessage (m : List Nat) : Encoder :=
  fun _ => Except.ok (some m, [])

/-- `decode_response_success` (smartplug.py lines 21-25): `False` for a
missing response, else `is_success` of the decoded status; a malformed
buffer makes `decode_response_status` raise, modelled by `.error ()`. -/
def decode_response_success : Decoder Bool :=
  fun response =>
    match response with
    | none => Except.ok false
    | some b =>
      match decode_response_status b with
      | none => Except.error ()
      | some st => Except.ok st.is_success

/-- `decode_nullable_response_wrapper` (smartplug.py lines 27-33): `None`
maps to `None`; otherwise the wrapped decoder runs (and may raise, which the
wrapper does not catch). -/
def decode_nullable_response_wrapper (f : List Nat → Option β) : Decoder (Option β) :=
  fun response =>
    match response with
    | none => Except.ok none
    | some b =>
      match f b with
      | none => Except.error ()
      | some v => Except.ok (some v)

/-- `_send_command` (smartplug.py lines 35-44): run the encoder; a `None`
message short-circuits to `decode_response(None)` with no write; otherwise
write the packet (recorded in the trace), read the response from the same
pipe and decode it.  Any raise propagates to the caller. -/
def _send_command (dev : Dev) (encode_message : Encoder) (decode_response : Decoder α) :
    Except Unit (α × Trace) :=
  match encode_message dev with
  | Except.error e => Except.error e
  | Except.ok (none, t) => (decode_response none).map (fun v => (v, t))
  | Except.ok (some m, t) =>
    match dev m with
    | Except.error e => Except.error e
    | Except.ok resp => (decode_response resp).map (fun v => (v, t ++ [m]))

/-- `send_command_wrap` (smartplug.py lines 50-58): run `_send_command` and
catch every exception, substituting `decode_response(None)`; only a raise
inside that fallback itself escapes the task.  The packets a failed exchange
wrote before raising are not tracked (the trace restarts empty). -/
def send_command_wrap (dev : Dev) (encode_message : Encoder) (decode_response : Decoder α) :
    Except Unit (α × Trace) :=
  match _send_command dev encode_message decode_response with
  | Except.ok r => Except.ok r
  | Except.error _ => (decode_response none).map (fun v => (v, []))

/-- Placeholder client used by `List.getD` for an out-of-range task index;
never reached when the completion order is a permutation of the indices. -/
def defaultDev : Dev := fun _ => Except.error ()

/-- `_send_commands` (smartplug.py lines 46-61): one `send_command_wrap`
task per client, results yielded by `asyncio.as_completed` in completion
order, modelled by the index list `order`; each yielded pair carries the
client (as its index in `clients`) and that task's outcome. -/
def _send_commands (clients : List Dev) (encode_message : Encoder)
    (decode_response : Decoder α) (order : List Nat) :
    List (Nat × Except Unit (α × Trace)) :=
  order.map (fun k => (k, send_command_wrap (clients.getD k defaultDev) encode_message decode_response))

/-- `get_schedule` (smartplug.py lines 88-91): `encode_get_schedule(i)` is
evaluated at the call site (its `ValueError` for an out-of-byte-range `i`
propagates), then `_send_command` runs with the nullable schedule decoder. -/
def get_schedule (dev : Dev) (i : Int) : Except Unit (Option Schedule × Trace) :=
  match encode_get_schedule i with
  | none => Except.error ()
  | some pkt => _send_command dev (constMessage pkt) (decode_nullable_response_wrapper decode_get_schedule)

/-- `get_client_schedule_info` + the `anext` call of `get_client_schedules`
(smartplug.py lines 93-100): the info request goes through the dispatcher's
`send_command_wrap`, so every exception is caught and becomes a `none`
result.  The final fallback arm is unreachable because the nullable decoder
never raises on a `None` response. -/
def get_client_schedule_info (dev : Dev) : Option ScheduleInfo × Trace :=
  match send_command_wrap dev (constMessage encode_get_schedule_info)
      (decode_nullable_response_wrapper decode_get_schedule_info) with
  | Except.ok r => r
  | Except.error _ => (none, [])

/-- The slot indices `range(1, num_schedules + 1)` of smartplug.py line 102. -/
def scheduleSlots (n : Nat) : List Int :=
  (List.range' 1 n).map (fun k => (k : Int))

/-- The fetch loop of `get_client_schedules` (smartplug.py lines 102-103):
fetch each slot in order, stopping with the exception if a fetch raises. -/
def get_client_schedules_loop (dev : Dev) (slots : List Int) :
    Except Unit (List (Option Schedule) × Trace) :=
  match slots with
  | [] => Except.ok ([], [])
  | i :: rest =>
    match get_schedule dev i with
    | Except.error e => Except.error e
    | Except.ok (s, t) =>
      match get_client_schedules_loop dev rest with
      | Except.error e => Except.error e
      | Except.ok (ss, t2) => Except.ok (s :: ss, t ++ t2)

/-- `get_client_schedules` (smartplug.py lines 98-103): read the schedule
info (0 schedules when it is unavailable), then fetch slots 1..num_schedules
sequentially and yield each fetch's result in that slot order. -/
def get_client_schedules (dev : Dev) : Except Unit (List (Option Schedule) × Trace) :=
  let r := get_client_schedule_info dev
  let n := match r.1 with
    | some si => si.num_schedules
    | none => 0
  match get_client_schedules_loop dev (scheduleSlots n) with
  | Except.error e => Except.error e
  | Except.ok (ss, t) => Except.ok (ss, r.2 ++ t)

/-- The `encode_remove_ith_schedule` closure of `remove_client_schedule`
(smartplug.py lines 114-119): fetch slot `i`; a missing schedule yields a
`None` message, otherwise the remove packet for the fetched schedule. -/
def encode_remove_ith_schedule (i : Int) : Encoder :=
  fun dev =>
    match get_schedule dev i with
    | Except.error e => Except.error e
    | Except.ok (none, t) => Except.ok (none, t)
    | Except.ok (some s, t) => Except.ok (some (encode_remove_schedule s), t)

/-- `remove_client_schedule` (smartplug.py lines 113-120): `_send_command`
on the first client with the fetching encoder and the default
`decode_response_success` decoder. -/
def remove_client_schedule (dev : Dev) (i : Int) : Except Unit (Bool × Trace) :=
  _send_command dev (encode_remove_ith_schedule i) decode_response_success

/-! Concrete devices and schedules used to instantiate the theorems below. -/

/-- A device whose every exchange raises (connection failure / timeout). -/
def failingDev : Dev := fun _ => Except.error ()

/-- A device that answers every packet with a success status echoing the
OFF opcode. -/
def okDev : Dev := fun _ => Except.ok (some [ZuliCommand.OFF, 0])

/-- A device whose every exchange completes but reads back no response. -/
def emptyDev : Dev := fun _ => Except.ok none

/-- The schedule with persistent id 5 stored in slot 1 of `dev0`. -/
def sched_id5 : Schedule :=
  { id := 5, action := .ON, hour := 7, minute := 0, second := 0,
    weekdays := [true, true, true, true, true, true, true],
    enabled := true, schedule_id := 1 }

/-- The schedule with persistent id 3 stored in slot 2 of `dev0`. -/
def sched_id3 : Schedule :=
  { id := 3, action := .ON, hour := 8, minute := 0, second := 0,
    weekdays := [true, true, true, true, true, true, true],
    enabled := true, schedule_id := 2 }

/-- A well-behaved device holding two schedules whose persistent ids
(5 then 3) arrive in descending order across slots 1 and 2. -/
def dev0 : Dev := fun pkt =>
  if pkt = [ZuliCommand.SCHEDULE_INFO_GET, 0] then
    Except.ok (some [ZuliCommand.SCHEDULE_INFO_GET, 0, 2, 20])
  else if pkt = [ZuliCommand.SCHEDULE_GET, 1] then
    Except.ok (some [ZuliCommand.SCHEDULE_GET, 0, 5, 1, 0, 0, 7, 0, 0, 127, 1, 1])
  else if pkt = [ZuliCommand.SCHEDULE_GET, 2] then
    Except.ok (some [ZuliCommand.SCHEDULE_GET, 0, 3, 1, 0, 0, 8, 0, 0, 127, 1, 2])
  else Except.ok none

/-- The schedule each slot of `dev0` decodes to. -/
def dev0Fetched : Int → Option Schedule := fun i =>
  if i = 1 then some sched_id5 else if i = 2 then some sched_id3 else none

/-- The Wednesday-only 07:30:00 schedule of the weekday-mapping example. -/
def wednesdaySchedule : Schedule :=
  { id := 0, action := .ON, hour := 7, minute := 30, second := 0,
    weekdays := [false, false, true, false, false, false, false],
    enabled := true, schedule_id := 0 }

/-- The weekday list with only local index `i` set. -/
def onlyWeekday (i : Fin 7) : List Bool :=
  (List.range 7).map (fun j => j == i.val)

/-- A sample valid schedule exercising both enum values and a nontrivial
weekday pattern. -/
def sampleSchedule : Schedule :=
  { id := 3, action := .OFF, hour := 7, minute := 30, second := 15,
    weekdays := [true, false, true, false, false, true, true],
    enabled := false, schedule_id := 2 }

/-! Theorems. -/

/-- Decoding the weekday byte built from 7 flags recovers the flags: the
shifts `(i + 1) % 7` for `i = 0..6` hit each of the 7 low bits exactly once. -/
theorem decodeWeekdays_encodeWeekdays (wd : List Bool) (h : wd.length = 7) :
    decodeWeekdays (encodeWeekdays wd) = wd := by
  rcases wd with _ | ⟨a, wd⟩
  · simp at h
  rcases wd with _ | ⟨b, wd⟩
  · simp at h
  rcases wd with _ | ⟨c, wd⟩
  · simp at h
  rcases wd with _ | ⟨d, wd⟩
  · simp at h
  rcases wd with _ | ⟨e, wd⟩
  · simp at h
  rcases wd with _ | ⟨f, wd⟩
  · simp at h
  rcases wd with _ | ⟨g, wd⟩
  · simp at h
  rcases wd with _ | ⟨x, wd⟩
  · revert a b c d e f g
    decide
  · simp at h

/-- Claim C7: for every integer brightness `b`, `encode_on b` equals
`encode_on` of `b` clamped into `[0, 100]`; in particular
`encode_on (-5) = encode_on 0` and `encode_on 150 = encode_on 100`. -/
theorem C7_encode_on_clamps :
    (∀ brightness : Int,
        encode_on brightness = encode_on (min 100 (max 0 brightness)))
    ∧ encode_on (-5) = encode_on 0 ∧ encode_on 150 = encode_on 100 := by
  refine ⟨fun b => ?_, rfl, rfl⟩
  simp only [encode_on, List.cons.injEq, and_true, true_and]
  omega

/-- Claim C10: `encode_get_schedule i` succeeds with exactly the packet
`[49, i]` for every integer `0 ≤ i ≤ 255` and fails (bytearray range error)
for every other integer; no `1..num_schedules` domain check is performed. -/
theorem C10_encode_get_schedule_byte_range :
    ∀ i : Int,
      (0 ≤ i ∧ i ≤ 255 →
        encode_get_schedule i = some [ZuliCommand.SCHEDULE_GET, i.toNat])
      ∧ ((i < 0 ∨ 255 < i) → encode_get_schedule i = none) := by
  intro i
  constructor
  · intro h
    unfold encode_get_schedule
    rw [if_pos h]
  · intro h
    unfold encode_get_schedule
    rw [if_neg (by omega)]

/-- Witness for C10 at slot 0 (succeeds although 0 is outside the documented
`1..num_schedules` domain), 255, 256 and -1. -/
theorem C10_witness :
    encode_get_schedule 0 = some [ZuliCommand.SCHEDULE_GET, Int.toNat 0]
    ∧ encode_get_schedule 255 = some [ZuliCommand.SCHEDULE_GET, Int.toNat 255]
    ∧ encode_get_schedule 256 = none
    ∧ encode_get_schedule (-1) = none :=
  ⟨(C10_encode_get_schedule_byte_range 0).1 (by decide),
   (C10_encode_get_schedule_byte_range 255).1 (by decide),
   (C10_encode_get_schedule_byte_range 256).2 (by decide),
   (C10_encode_get_schedule_byte_range (-1)).2 (by decide)⟩

/-- Claim C6: `decode_response_status` fails on every buffer shorter than 2
bytes and on every status byte outside {0, 5, 6, 9, 15}; on every other
buffer it returns the status decoded from byte 1, never a silent default. -/
theorem C6_decode_response_status_total :
    ∀ response : List Nat,
      (response.length < 2 → decode_response_status response = none)
      ∧ (2 ≤ response.length →
          response.getD 1 0 ≠ 0 → response.getD 1 0 ≠ 5 → response.getD 1 0 ≠ 6 →
          response.getD 1 0 ≠ 9 → response.getD 1 0 ≠ 15 →
          decode_response_status response = none)
      ∧ (2 ≤ response.length → ∀ st : ZuliStatus,
          ZuliStatus.fromNat (response.getD 1 0) = some st →
          decode_response_status response = some st) := by
  intro r
  refine ⟨fun h => ?_, fun h h0 h5 h6 h9 h15 => ?_, fun h st hst => ?_⟩
  · unfold decode_response_status
    rw [if_pos h]
  · unfold decode_response_status
    rw [if_neg (by omega)]
    unfold ZuliStatus.fromNat
    rw [if_neg h0, if_neg h5, if_neg h6, if_neg h15, if_neg h9]
  · unfold decode_response_status
    rw [if_neg (by omega)]
    exact hst

/-- Witness for C6: an empty buffer and a 1-byte buffer fail, an unknown
status byte 7 fails, and status byte 5 decodes to BUSY. -/
theorem C6_witness :
    decode_response_status [ZuliCommand.ON] = none
    ∧ decode_response_status [ZuliCommand.ON, 7] = none
    ∧ decode_response_status [ZuliCommand.ON, 5] = some ZuliStatus.BUSY :=
  ⟨(C6_decode_response_status_total [ZuliCommand.ON]).1 (by decide),
   (C6_decode_response_status_total [ZuliCommand.ON, 7]).2.1 (by decide)
     (by decide) (by decide) (by decide) (by decide) (by decide),
   (C6_decode_response_status_total [ZuliCommand.ON, 5]).2.2 (by decide)
     ZuliStatus.BUSY (by decide)⟩

/-- Claim C8: the Wednesday-only 07:30:00 schedule encodes to exactly
`[0, 1, 0, 0, 7, 30, 0, 0x08, 1, 0]`, and in general the weekday list with
only local index `i` set encodes to the single wire bit `(i + 1) % 7`. -/
theorem C8_weekday_wire_mapping :
    Schedule.to_bytes wednesdaySchedule = [0, 1, 0, 0, 7, 30, 0, 8, 1, 0]
    ∧ ∀ i : Fin 7, encodeWeekdays (onlyWeekday i) = 2 ^ ((i.val + 1) % 7) := by
  decide

/-- Claim C1: decoding the 10-byte encoding of any valid schedule returns
exactly that schedule (`Schedule.from_bytes (s.to_bytes) = s`). -/
theorem C1_schedule_roundtrip (s : Schedule) (h : s.Valid) :
    Schedule.from_bytes s.to_bytes = some s := by
  obtain ⟨sid, act, hh, mm, sec, wd, en, slot⟩ := s
  obtain ⟨-, -, h24, h60m, h60s, hlen⟩ := h
  have hwd := decodeWeekdays_encodeWeekdays wd hlen
  cases act <;> cases en <;>
    simp [Schedule.to_bytes, Schedule.from_bytes, ScheduleAction.toNat,
      ScheduleAction.fromNat, h24, h60m, h60s, hwd]

/-- Witness for C1 on a concrete valid schedule. -/
theorem C1_witness :
    sampleSchedule.Valid
    ∧ Schedule.from_bytes sampleSchedule.to_bytes = some sampleSchedule :=
  ⟨by decide, C1_schedule_roundtrip sampleSchedule (by decide)⟩

/-- A successful decode stores byte 8 compared against 1 in the `enabled`
field. -/
theorem from_bytes_enabled (raw : List Nat) (s : Schedule)
    (h : Schedule.from_bytes raw = some s) :
    s.enabled = (raw.getD 8 0 == 1) := by
  unfold Schedule.from_bytes at h
  split at h
  · simp at h
  · split at h
    · simp at h
    · split at h
      · cases Option.some.inj h
        rfl
      · simp at h

/-- The schedule decoded from `[0, 1, 0, 0, 7, 30, 0, 8, 5, 0]`: its enabled
byte 5 decodes to `enabled = false`. -/
def enabled5Schedule : Schedule :=
  { id := 0, action := .ON, hour := 7, minute := 30, second := 0,
    weekdays := [false, false, true, false, false, false, false],
    enabled := false, schedule_id := 0 }

/-- Claim C9: `Schedule.from_bytes` ignores bytes 2 and 3, decodes any
enabled byte other than 1 as `enabled = false` instead of failing, and for
every successfully decoded buffer with nonzero bytes 2-3 or an enabled byte
outside {0, 1}, re-encoding the decoded schedule does not reproduce the
buffer. -/
theorem C9_padding_and_enabled_lossy :
    (∀ b1 b2 : List Nat, b1.length = 10 → b2.length = 10 →
      (∀ k, k < 10 → k ≠ 2 → k ≠ 3 → b1.getD k 0 = b2.getD k 0) →
      Schedule.from_bytes b1 = Schedule.from_bytes b2)
    ∧ (∀ raw : List Nat, ∀ s : Schedule, Schedule.from_bytes raw = some s →
        raw.getD 8 0 ≠ 1 → s.enabled = false)
    ∧ (∀ raw : List Nat, ∀ s : Schedule, Schedule.from_bytes raw = some s →
        (raw.getD 2 0 ≠ 0 ∨ raw.getD 3 0 ≠ 0 ∨
          (raw.getD 8 0 ≠ 0 ∧ raw.getD 8 0 ≠ 1)) →
        Schedule.to_bytes s ≠ raw) := by
  refine ⟨fun b1 b2 h1 h2 hk => ?_, fun raw s h h8 => ?_, fun raw s h hcase => ?_⟩
  · have e0 := hk 0 (by omega) (by omega) (by omega)
    have e1 := hk 1 (by omega) (by omega) (by omega)
    have e4 := hk 4 (by omega) (by omega) (by omega)
    have e5 := hk 5 (by omega) (by omega) (by omega)
    have e6 := hk 6 (by omega) (by omega) (by omega)
    have e7 := hk 7 (by omega) (by omega) (by omega)
    have e8 := hk 8 (by omega) (by omega) (by omega)
    have e9 := hk 9 (by omega) (by omega) (by omega)
    unfold Schedule.from_bytes
    rw [h1, h2, e0, e1, e4, e5, e6, e7, e8, e9]
  · rw [from_bytes_enabled raw s h]
    simpa using h8
  · intro heq
    rcases hcase with hc | hc | hc
    · apply hc
      have h2' := congrArg (fun l => l.getD 2 0) heq
      simpa [Schedule.to_bytes] using h2'.symm
    · apply hc
      have h3' := congrArg (fun l => l.getD 3 0) heq
      simpa [Schedule.to_bytes] using h3'.symm
    · have hen : s.enabled = false := by
        rw [from_bytes_enabled raw s h]
        simpa using hc.2
      have h8' := congrArg (fun l => l.getD 8 0) heq
      simp [Schedule.to_bytes, hen] at h8'
      exact hc.1 (by simpa using h8'.symm)

/-- Witness for C9: buffers differing only in the padding bytes decode
equally, enabled byte 5 decodes to disabled, and re-encoding that decode
does not reproduce the buffer. -/
theorem C9_witness :
    Schedule.from_bytes [0, 1, 9, 9, 7, 30, 0, 8, 1, 0]
      = Schedule.from_bytes [0, 1, 0, 0, 7, 30, 0, 8, 1, 0]
    ∧ enabled5Schedule.enabled = false
    ∧ Schedule.to_bytes enabled5Schedule ≠ [0, 1, 0, 0, 7, 30, 0, 8, 5, 0] := by
  have hdec : Schedule.from_bytes [0, 1, 0, 0, 7, 30, 0, 8, 5, 0]
      = some enabled5Schedule := by decide
  exact ⟨C9_padding_and_enabled_lossy.1 _ _ (by decide) (by decide) (by decide),
    C9_padding_and_enabled_lossy.2.1 _ enabled5Schedule hdec (by decide),
    C9_padding_and_enabled_lossy.2.2 _ enabled5Schedule hdec
      (Or.inr (Or.inr ⟨by decide, by decide⟩))⟩

/-- With a decoder that succeeds on a missing response, `send_command_wrap`
always produces a value: every exception is caught. -/
theorem send_command_wrap_ok (dev : Dev) (enc : Encoder) (dec : Decoder α)
    (v : α) (hdef : dec none = Except.ok v) :
    ∃ w, send_command_wrap dev enc dec = Except.ok w := by
  unfold send_command_wrap
  cases h : _send_command dev enc dec with
  | ok r => exact ⟨r, rfl⟩
  | error e =>
    rw [hdef]
    exact ⟨(v, []), rfl⟩

/-- Claim C4: the dispatcher yields exactly one pair per input session (the
yielded client indices are a permutation of all indices), in completion
order, and every yielded result is a value — an exception inside one task
never escapes nor suppresses another session's result. -/
theorem C4_dispatcher_yields_all (clients : List Dev) (enc : Encoder)
    (dec : Decoder α) (order : List Nat) (v : α)
    (hperm : order.Perm (List.range clients.length))
    (hdef : dec none = Except.ok v) :
    (_send_commands clients enc dec order).length = clients.length
    ∧ ((_send_commands clients enc dec order).map Prod.fst).Perm
        (List.range clients.length)
    ∧ ∀ p ∈ _send_commands clients enc dec order, ∃ w, p.2 = Except.ok w := by
  refine ⟨?_, ?_, ?_⟩
  · have hlen := hperm.length_eq
    simpa [_send_commands] using hlen
  · have hfst : ∀ l : List Nat, (_send_commands clients enc dec l).map Prod.fst = l := by
      intro l
      unfold _send_commands
      induction l with
      | nil => rfl
      | cons a l ih => simpa using ih
    rw [hfst order]
    exact hperm
  · intro p hp
    simp only [_send_commands, List.mem_map] at hp
    obtain ⟨k, hk, rfl⟩ := hp
    exact send_command_wrap_ok _ enc dec v hdef

/-- Witness for C4: two clients, one of which always raises, yield exactly
two value-carrying pairs in the completion order 1, 0. -/
theorem C4_witness :
    ([1, 0].Perm (List.range 2))
    ∧ (_send_commands [okDev, failingDev] (constMessage encode_off)
        decode_response_success [1, 0]).length = 2
    ∧ ((_send_commands [okDev, failingDev] (constMessage encode_off)
        decode_response_success [1, 0]).map Prod.fst).Perm (List.range 2)
    ∧ ∀ p ∈ _send_commands [okDev, failingDev] (constMessage encode_off)
        decode_response_success [1, 0], ∃ w, p.2 = Except.ok w := by
  have h := C4_dispatcher_yields_all [okDev, failingDev] (constMessage encode_off)
    decode_response_success [1, 0] false (by decide) rfl
  exact ⟨by decide, h.1, h.2.1, h.2.2⟩

/-- Claim C3 (amended): when a session's command task raises,
`send_command_wrap` catches the exception and substitutes the decoder's
null-response default value; the error itself is not carried. -/
theorem C3_error_replaced_by_default (dec : Decoder α) (dev : Dev)
    (enc : Encoder) (e : Unit)
    (h : _send_command dev enc dec = Except.error e) :
    send_command_wrap dev enc dec = (dec none).map (fun w => (w, [])) := by
  unfold send_command_wrap
  rw [h]

/-- Witness for C3 (amended): a raising session's wrapped result is exactly
the decoder's null-response value. -/
theorem C3_witness :
    _send_command failingDev (constMessage encode_off) decode_response_success
      = Except.error ()
    ∧ send_command_wrap failingDev (constMessage encode_off)
        decode_response_success
      = (decode_response_success none).map (fun w => (w, [])) :=
  ⟨rfl, C3_error_replaced_by_default decode_response_success failingDev
    (constMessage encode_off) () rfl⟩

/-- Counterexample to claim C3 as stated: the fan-out over one session whose
task raises yields the plain value `false` — exactly the default
`decode_response_success` gives for a missing response — so the captured
error is dropped and replaced by a default failure value. -/
theorem C3_counterexample :
    _send_commands [failingDev] (constMessage encode_off)
        decode_response_success [0]
      = [(0, Except.ok (false, []))]
    ∧ decode_response_success none = Except.ok false :=
  ⟨rfl, rfl⟩

/-- Claim C5: when the fetch of slot `i` yields no schedule, the remove is a
no-op: the result is the not-found/failure value `false`, the written
packets are exactly the fetch's own, and each of them is a SCHEDULE_GET
packet — no SCHEDULE_REMOVE packet is ever written. -/
theorem C5_remove_missing_schedule_noop (dev : Dev) (i : Int) (t : Trace)
    (h : get_schedule dev i = Except.ok (none, t)) :
    remove_client_schedule dev i = Except.ok (false, t)
    ∧ ∀ p ∈ t, p.getD 0 0 = ZuliCommand.SCHEDULE_GET := by
  constructor
  · unfold remove_client_schedule _send_command encode_remove_ith_schedule
    rw [h]
    rfl
  · unfold get_schedule at h
    split at h
    · simp at h
    · rename_i pkt henc
      simp only [_send_command, constMessage] at h
      split at h
      · simp at h
      · rename_i resp hresp
        cases hd : decode_nullable_response_wrapper decode_get_schedule resp with
        | error e =>
          rw [hd] at h
          simp [Except.map] at h
        | ok w =>
          rw [hd] at h
          simp only [Except.map, Except.ok.injEq, Prod.mk.injEq] at h
          obtain ⟨-, ht⟩ := h
          subst ht
          unfold encode_get_schedule at henc
          split at henc
          · cases Option.some.inj henc
            intro p hp
            simp only [List.nil_append, List.mem_singleton] at hp
            subst hp
            rfl
          · simp at henc

/-- Witness for C5: a device that reads back no response makes the slot-4
fetch yield no schedule; the remove then writes only the fetch packet and
returns `false`. -/
theorem C5_witness :
    get_schedule emptyDev 4
      = Except.ok (none, [[ZuliCommand.SCHEDULE_GET, 4]])
    ∧ remove_client_schedule emptyDev 4
      = Except.ok (false, [[ZuliCommand.SCHEDULE_GET, 4]])
    ∧ ∀ p ∈ [[ZuliCommand.SCHEDULE_GET, 4]],
        List.getD p 0 0 = ZuliCommand.SCHEDULE_GET := by
  have h := C5_remove_missing_schedule_noop emptyDev 4
    [[ZuliCommand.SCHEDULE_GET, 4]] rfl
  exact ⟨rfl, h.1, h.2⟩

/-- When every requested slot fetch succeeds, the fetch loop returns the
fetched results in slot order and writes exactly one SCHEDULE_GET packet per
slot, in the same order. -/
theorem get_client_schedules_loop_eq (dev : Dev) (f : Int → Option Schedule) :
    ∀ slots : List Int,
      (∀ i ∈ slots,
        get_schedule dev i
          = Except.ok (f i, [[ZuliCommand.SCHEDULE_GET, i.toNat]])) →
      get_client_schedules_loop dev slots
        = Except.ok (slots.map f,
            slots.map (fun i => [ZuliCommand.SCHEDULE_GET, i.toNat])) := by
  intro slots
  induction slots with
  | nil => intro _; rfl
  | cons i rest ih =>
    intro hall
    have hi := hall i (List.mem_cons_self i rest)
    have hrest := ih (fun j hj => hall j (List.mem_cons_of_mem i hj))
    unfold get_client_schedules_loop
    rw [hi, hrest]
    simp

/-- Claim C2 (amended): for a session whose schedule-info response reports
`num_schedules = n` and whose slot fetches all complete, the aggregator
issues exactly `n` SCHEDULE_GET fetches, sequentially in slot order
`1..n`, and yields the fetched results in that same slot order — it does
not sort them by persistent id. -/
theorem C2_sequential_fetch_slot_order (dev : Dev) (si : ScheduleInfo)
    (t0 : Trace) (f : Int → Option Schedule)
    (hinfo : get_client_schedule_info dev = (some si, t0))
    (hfetch : ∀ i ∈ scheduleSlots si.num_schedules,
      get_schedule dev i
        = Except.ok (f i, [[ZuliCommand.SCHEDULE_GET, i.toNat]])) :
    get_client_schedules dev
      = Except.ok ((scheduleSlots si.num_schedules).map f,
          t0 ++ (scheduleSlots si.num_schedules).map
            (fun i => [ZuliCommand.SCHEDULE_GET, i.toNat])) := by
  unfold get_client_schedules
  rw [hinfo]
  dsimp only
  rw [get_client_schedules_loop_eq dev f (scheduleSlots si.num_schedules) hfetch]

/-- Witness for C2 (amended) on the two-schedule device `dev0`. -/
theorem C2_witness :
    get_client_schedule_info dev0
      = (some { num_schedules := 2, max_schedules := 20 },
         [[ZuliCommand.SCHEDULE_INFO_GET, 0]])
    ∧ get_client_schedules dev0
      = Except.ok ((scheduleSlots 2).map dev0Fetched,
          [[ZuliCommand.SCHEDULE_INFO_GET, 0]] ++ (scheduleSlots 2).map
            (fun i => [ZuliCommand.SCHEDULE_GET, i.toNat])) := by
  refine ⟨rfl, ?_⟩
  exact C2_sequential_fetch_slot_order dev0
    { num_schedules := 2, max_schedules := 20 }
    [[ZuliCommand.SCHEDULE_INFO_GET, 0]] dev0Fetched rfl
    (by intro i hi; fin_cases hi <;> rfl)

/-- Counterexample to claim C2 as stated: `dev0` reports two schedules whose
persistent ids arrive as 5 then 3; the aggregator returns them in that slot
order, which is not sorted by persistent id ascending. -/
theorem C2_counterexample :
    get_client_schedules dev0
      = Except.ok ([some sched_id5, some sched_id3],
          [[ZuliCommand.SCHEDULE_INFO_GET, 0], [ZuliCommand.SCHEDULE_GET, 1],
           [ZuliCommand.SCHEDULE_GET, 2]])
    ∧ sched_id5.id = 5 ∧ sched_id3.id = 3
    ∧ ¬ List.Sorted (· ≤ ·) (List.map Schedule.id [sched_id5, sched_id3]) := by
  refine ⟨rfl, rfl, rfl, ?_⟩
  decide

end Zuli
